import Mathlib

/-!
Shallow embedding of `pynq/lib/rgbled.py` (class `RGBLED`).

The Python class keeps three pieces of process-wide (class-level) state:
`_mmio` (the shared memory-mapped accessor, `None` until first construction),
`_rgbleds_val` (the cached shared register value) and `_rgbleds_start_index`
(the lowest index seen among zero-offset instances, initially `float("inf")`).
Each instance keeps `index`, `_offset` and a local cached value `_val`.

Python integers are unbounded, and all register values occurring are
nonnegative, so register values are modelled as `Nat` and indices/offsets as
`Int`.  Python exceptions are modelled as an explicit error type; since a
Python `raise` does not roll back earlier assignments, every stateful
operation returns the (possibly mutated) state alongside the outcome.
The external collaborators (the `PL.ip_dict` address resolver and the raw
`MMIO` write) are modelled as always succeeding; `MMIO` writes are recorded
in a log.
-/

/-- Python expression `v & ~m` on nonnegative ints (clear in `v` the bits set
in `m`), written via the identity `v & ~m = v ^ (v & m)` so that it evaluates
in the kernel. -/
def pyAndNot (v m : Nat) : Nat := v ^^^ (v &&& m)

/-- Python exceptions raised (or propagated) by the code under study. -/
inductive PyError where
  | valueError (msg : String)
  | attributeError (msg : String)
  | typeError (msg : String)
deriving DecidableEq, Repr

/-- Module-level constant `RGBLEDS_XGPIO_OFFSET = 0`. -/
def RGBLEDS_XGPIO_OFFSET : Int := 0

/-- Color constant `RGB_CLEAR = 0`. -/
def RGB_CLEAR : Int := 0

/-- Color constant `RGB_BLUE = 1`. -/
def RGB_BLUE : Int := 1

/-- Color constant `RGB_GREEN = 2`. -/
def RGB_GREEN : Int := 2

/-- Color constant `RGB_CYAN = 3`. -/
def RGB_CYAN : Int := 3

/-- Color constant `RGB_RED = 4`. -/
def RGB_RED : Int := 4

/-- Color constant `RGB_MAGENTA = 5`. -/
def RGB_MAGENTA : Int := 5

/-- Color constant `RGB_YELLOW = 6`. -/
def RGB_YELLOW : Int := 6

/-- Color constant `RGB_WHITE = 7`. -/
def RGB_WHITE : Int := 7

/-- Per-instance state of an `RGBLED` object: `self.index`, `self._offset`
and the local cached value `self._val`. -/
structure RGBLED where
  index : Int
  offset : Int
  val : Nat
deriving DecidableEq, Repr

/-- Process-wide (class-level) state of the `RGBLED` class:
`_mmio` (modelled by whether it is initialised plus a log of the writes
issued through it), `_rgbleds_val`, and `_rgbleds_start_index`
(`none` models the initial `float("inf")`). -/
structure RGBState where
  mmioInit : Bool
  mmioLog : List (Int × Nat)
  rgbledsVal : Nat
  startIndex : Option Int
deriving DecidableEq, Repr

/-- The class-level state before any construction: `_mmio = None`,
`_rgbleds_val = 0`, `_rgbleds_start_index = float("inf")`. -/
def initState : RGBState :=
  { mmioInit := false, mmioLog := [], rgbledsVal := 0, startIndex := none }

/-- Python comparison `index < RGBLED._rgbleds_start_index`, where the start
index may still be `float("inf")` (every int is below infinity). -/
def ltStart (i : Int) : Option Int → Bool
  | none => true
  | some s => i < s

/-- Static method `RGBLED._set_rgbleds_value(value, offset=0)`: validate the
offset, update `_rgbleds_val` when `offset == 0`, then write through `_mmio`.
Note the validation happens before any mutation, but the `_rgbleds_val`
update happens before the `_mmio` access (which raises `AttributeError` if
`_mmio` is still `None`). -/
def set_rgbleds_value (value : Nat) (offset : Int) (st : RGBState) :
    Except PyError Unit × RGBState :=
  if offset < 0 then
    (.error (.valueError "Offset cannot be a negative value."), st)
  else if offset % 4 ≠ 0 then
    (.error (.valueError "Offset must be a multiple of 4."), st)
  else
    let st1 := if offset = 0 then { st with rgbledsVal := value } else st
    if st1.mmioInit then
      (.ok (), { st1 with
        mmioLog := st1.mmioLog ++ [(RGBLEDS_XGPIO_OFFSET + offset, value)] })
    else
      (.error (.attributeError "NoneType object has no attribute write"), st1)

/-- Constructor `RGBLED.__init__(self, index, ip_name="rgbleds_gpio",
offset=0)`.  In source order: `self.index = index` (discarded with the
object if construction raises); lazy initialisation of the shared `_mmio`
(address resolution is external and modelled as succeeding); the
`_rgbleds_start_index` update when `offset == 0`; then the two offset
validations; finally `self._offset` and `self._val = 0` are stored. -/
def RGBLED.init (index : Int) (offset : Int) (st : RGBState) :
    Except PyError RGBLED × RGBState :=
  let st1 := if st.mmioInit then st else { st with mmioInit := true }
  let st2 :=
    if offset = 0 ∧ ltStart index st1.startIndex then
      { st1 with startIndex := some index }
    else st1
  if offset < 0 then
    (.error (.valueError "Offset cannot be a negative value."), st2)
  else if offset % 4 ≠ 0 then
    (.error (.valueError "Offset must be a multiple of 4."), st2)
  else
    (.ok { index := index, offset := offset, val := 0 }, st2)

/-- Python expression `(self.index - RGBLED._rgbleds_start_index) * 3`,
followed by its use as a shift amount: if `_rgbleds_start_index` is still
`float("inf")` the shift is a float (`TypeError`), and a negative shift
amount raises `ValueError`. -/
def shiftOf (i : Int) : Option Int → Except PyError Nat
  | none => .error (.typeError "unsupported operand type for shift: float")
  | some s =>
      if (i - s) * 3 < 0 then .error (.valueError "negative shift count")
      else .ok ((i - s) * 3).toNat

/-- Method `RGBLED.on(self, color)`.  Validates the color; with
`self._offset > 0` updates the local value (`self._val & ~0x7 | color`) and
writes it at the instance's own offset; otherwise masks this instance's
3-bit field out of `_rgbleds_val` and ORs the color in at the instance's
shift.  The instance is returned alongside the outcome because the mutation
of `self._val` survives a later raise. -/
def RGBLED.on (led : RGBLED) (color : Int) (st : RGBState) :
    Except PyError Unit × RGBLED × RGBState :=
  if color < 0 ∨ 8 ≤ color then
    (.error (.valueError "color should be an integer value from 0 to 7."),
     led, st)
  else if led.offset > 0 then
    let led1 := { led with val := pyAndNot led.val 7 ||| color.toNat }
    match set_rgbleds_value led1.val led1.offset st with
    | (.ok _, st') => (.ok (), led1, st')
    | (.error e, st') => (.error e, led1, st')
  else
    match shiftOf led.index st.startIndex with
    | .error e => (.error e, led, st)
    | .ok sh =>
        let rgb_mask := 7 <<< sh
        let new_val := pyAndNot st.rgbledsVal rgb_mask ||| (color.toNat <<< sh)
        match set_rgbleds_value new_val 0 st with
        | (.ok _, st') => (.ok (), led, st')
        | (.error e, st') => (.error e, led, st')

/-- Method `RGBLED.off(self)`: same dual-path logic as `on` but clears the
instance's field with no OR step. -/
def RGBLED.off (led : RGBLED) (st : RGBState) :
    Except PyError Unit × RGBLED × RGBState :=
  if led.offset > 0 then
    let led1 := { led with val := pyAndNot led.val 7 }
    match set_rgbleds_value led1.val led1.offset st with
    | (.ok _, st') => (.ok (), led1, st')
    | (.error e, st') => (.error e, led1, st')
  else
    match shiftOf led.index st.startIndex with
    | .error e => (.error e, led, st)
    | .ok sh =>
        let rgb_mask := 7 <<< sh
        let new_val := pyAndNot st.rgbledsVal rgb_mask
        match set_rgbleds_value new_val 0 st with
        | (.ok _, st') => (.ok (), led, st')
        | (.error e, st') => (.error e, led, st')

/-- Method `RGBLED.write(self, color)`: delegates to `self.on(color)`. -/
def RGBLED.write (led : RGBLED) (color : Int) (st : RGBState) :
    Except PyError Unit × RGBLED × RGBState :=
  led.on color st

/-- Method `RGBLED.read(self)`: with `self._offset > 0` returns the local
cached value, otherwise extracts this instance's 3-bit field from
`_rgbleds_val`.  Pure: no state is mutated. -/
def RGBLED.read (led : RGBLED) (st : RGBState) : Except PyError Nat :=
  if led.offset > 0 then .ok led.val
  else
    match shiftOf led.index st.startIndex with
    | .error e => .error e
    | .ok sh => .ok ((st.rgbledsVal >>> sh) &&& 7)

/-- Events of an execution: constructions, and `on`/`off` calls on a
previously constructed instance identified by its construction order
(`read` is pure and cannot change any state, so it needs no event). -/
inductive Event where
  | construct (index ofs : Int)
  | callOn (k : Nat) (color : Int)
  | callOff (k : Nat)
deriving DecidableEq, Repr

/-- Run a list of events, threading the class-level state and the list of
successfully constructed instances: a raising construction discards its
object, a raising method call keeps its (possibly mutated) instance, and a
call naming a never-constructed instance is skipped. -/
def runEvents : List Event → List RGBLED × RGBState → List RGBLED × RGBState
  | [], acc => acc
  | .construct i o :: evs, (leds, st) =>
      match RGBLED.init i o st with
      | (.ok led, st') => runEvents evs (leds ++ [led], st')
      | (.error _, st') => runEvents evs (leds, st')
  | .callOn k c :: evs, (leds, st) =>
      match leds[k]? with
      | some led => runEvents evs (leds.set k (led.on c st).2.1, (led.on c st).2.2)
      | none => runEvents evs (leds, st)
  | .callOff k :: evs, (leds, st) =>
      match leds[k]? with
      | some led => runEvents evs (leds.set k (led.off st).2.1, (led.off st).2.2)
      | none => runEvents evs (leds, st)

/-- Minimum of two extended indices, `none` being plus infinity. -/
def optMin : Option Int → Option Int → Option Int
  | none, b => b
  | some a, none => some a
  | some a, some b => some (min a b)

/-- Order on extended indices, `none` being plus infinity. -/
def startLe : Option Int → Option Int → Prop
  | _, none => True
  | none, some _ => False
  | some a, some b => a ≤ b

/-- Modelled from the spec: the minimum index among the zero-offset
constructions of an event list (`none` when there is no such event), the
value `_rgbleds_start_index` is specified to track. -/
def specSharedMin : List Event → Option Int
  | [] => none
  | .construct i o :: evs =>
      if o = 0 then
        match specSharedMin evs with
        | none => some i
        | some m => some (min i m)
      else specSharedMin evs
  | _ :: evs => specSharedMin evs

/-- Invariant of a constructed instance against the class-level state: a
zero-offset instance's index is bounded below by `_rgbleds_start_index`
(which in particular is no longer infinite). -/
def LedInv (led : RGBLED) (st : RGBState) : Prop :=
  led.offset = 0 → ∃ s : Int, st.startIndex = some s ∧ s ≤ led.index

/-! ### Bit-level lemmas about the masking scheme -/

/-- Bits of `pyAndNot`: bit `i` survives exactly when it is set in `v` and
clear in `m`. -/
theorem testBit_pyAndNot (v m i : Nat) :
    (pyAndNot v m).testBit i = (v.testBit i && !m.testBit i) := by
  simp only [pyAndNot, Nat.testBit_xor, Nat.testBit_land]
  cases v.testBit i <;> cases m.testBit i <;> rfl

/-- Bits of the constant mask `0x7`. -/
theorem testBit_seven (i : Nat) : (7 : Nat).testBit i = decide (i < 3) := by
  have h : (7 : Nat) = 2 ^ 3 - 1 := by norm_num
  rw [h, Nat.testBit_two_pow_sub_one]

/-- Clearing the low three bits of a value below 8 yields 0. -/
theorem pyAndNot_seven_of_lt (v : Nat) (hv : v < 8) : pyAndNot v 7 = 0 := by
  apply Nat.eq_of_testBit_eq
  intro i
  rw [testBit_pyAndNot, testBit_seven, Nat.zero_testBit]
  by_cases hi : i < 3
  · simp [hi]
  · have : v.testBit i = false := by
      apply Nat.testBit_lt_two_pow
      calc v < 8 := hv
        _ = 2 ^ 3 := by norm_num
        _ ≤ 2 ^ i := Nat.pow_le_pow_right (by norm_num) (by omega)
    simp [this]

/-- A three-bit value below 8 has no bits at positions three and above. -/
theorem testBit_of_lt_eight (c i : Nat) (hc : c < 8) (hi : 3 ≤ i) :
    c.testBit i = false := by
  apply Nat.testBit_lt_two_pow
  calc c < 8 := hc
    _ = 2 ^ 3 := by norm_num
    _ ≤ 2 ^ i := Nat.pow_le_pow_right (by norm_num) hi

/-- Reading back the field just written: clearing the three bits at shift
`s` and OR-ing in a color `c < 8` at shift `s`, then extracting at shift
`s`, recovers `c`. -/
theorem extract_own_field (v c s : Nat) (hc : c < 8) :
    (((pyAndNot v (7 <<< s)) ||| (c <<< s)) >>> s) &&& 7 = c := by
  apply Nat.eq_of_testBit_eq
  intro i
  rw [Nat.testBit_land, Nat.testBit_shiftRight, Nat.testBit_lor,
    testBit_pyAndNot, Nat.testBit_shiftLeft, Nat.testBit_shiftLeft,
    testBit_seven, testBit_seven]
  have h1 : s + i ≥ s := Nat.le_add_right s i
  have h2 : s + i - s = i := by omega
  rw [h2]
  by_cases hi : i < 3
  · simp [h1, hi]
  · simp [h1, hi, testBit_of_lt_eight c i hc (by omega)]

/-- Clearing the three bits at shift `s` then extracting at shift `s`
yields 0. -/
theorem extract_cleared_field (v s : Nat) :
    (((pyAndNot v (7 <<< s)) >>> s) &&& 7) = 0 := by
  apply Nat.eq_of_testBit_eq
  intro i
  rw [Nat.testBit_land, Nat.testBit_shiftRight, testBit_pyAndNot,
    Nat.testBit_shiftLeft, testBit_seven, Nat.zero_testBit]
  have h1 : s + i ≥ s := Nat.le_add_right s i
  have h2 : s + i - s = i := by omega
  rw [h2]
  by_cases hi : i < 3
  · simp [h1, hi, testBit_seven]
  · simp [h1, hi, testBit_seven]

/-- Frame lemma: a masked write of a color `c < 8` into the three bits at
shift `sa` does not change the three-bit field extracted at a shift `sb`
at distance at least three from `sa`. -/
theorem extract_other_field (v c sa sb : Nat) (hc : c < 8)
    (hdisj : sa + 3 ≤ sb ∨ sb + 3 ≤ sa) :
    (((pyAndNot v (7 <<< sa)) ||| (c <<< sa)) >>> sb) &&& 7 =
      (v >>> sb) &&& 7 := by
  apply Nat.eq_of_testBit_eq
  intro i
  rw [Nat.testBit_land, Nat.testBit_land, Nat.testBit_shiftRight,
    Nat.testBit_shiftRight, Nat.testBit_lor, testBit_pyAndNot,
    Nat.testBit_shiftLeft, Nat.testBit_shiftLeft, testBit_seven,
    testBit_seven]
  by_cases hi : i < 3
  · rcases hdisj with hab | hba
    · have hge : sb + i ≥ sa := by omega
      have h3 : ¬ (sb + i - sa < 3) := by omega
      simp [hge, h3, testBit_of_lt_eight c (sb + i - sa) hc (by omega)]
    · have hge : ¬ (sb + i ≥ sa) := by omega
      simp [hge]
  · simp [hi]

/-! ### Preservation and unfolding helpers -/

/-- The register-write primitive never touches `_rgbleds_start_index`. -/
theorem set_rgbleds_value_startIndex (v : Nat) (ofs : Int) (st : RGBState) :
    (set_rgbleds_value v ofs st).2.startIndex = st.startIndex := by
  simp only [set_rgbleds_value]
  split
  · rfl
  split
  · rfl
  split <;> split <;> rfl

/-- The register-write primitive never touches `_mmio`. -/
theorem set_rgbleds_value_mmioInit (v : Nat) (ofs : Int) (st : RGBState) :
    (set_rgbleds_value v ofs st).2.mmioInit = st.mmioInit := by
  simp only [set_rgbleds_value]
  split
  · rfl
  split
  · rfl
  split <;> split <;> rfl

/-- A nonzero offset leaves `_rgbleds_val` unchanged, whether the call
validates or raises. -/
theorem set_rgbleds_value_ne_zero (v : Nat) (ofs : Int) (st : RGBState)
    (h : ofs ≠ 0) :
    (set_rgbleds_value v ofs st).2.rgbledsVal = st.rgbledsVal := by
  simp only [set_rgbleds_value]
  split
  · rfl
  split
  · rfl
  split <;> rfl

/-- A zero offset stores the given value into `_rgbleds_val` (even when the
subsequent `_mmio` access raises). -/
theorem set_rgbleds_value_zero (v : Nat) (st : RGBState) :
    (set_rgbleds_value v 0 st).2.rgbledsVal = v := by
  simp only [set_rgbleds_value]
  norm_num
  split <;> rfl

/-- A zero-offset write with an initialised `_mmio` succeeds. -/
theorem set_rgbleds_value_zero_ok (v : Nat) (st : RGBState)
    (hm : st.mmioInit = true) :
    (set_rgbleds_value v 0 st).1 = .ok () := by
  simp [set_rgbleds_value, hm]

/-- A valid positive-offset write with an initialised `_mmio` succeeds. -/
theorem set_rgbleds_value_pos_ok (v : Nat) (ofs : Int) (st : RGBState)
    (h0 : 0 < ofs) (h4 : ofs % 4 = 0) (hm : st.mmioInit = true) :
    (set_rgbleds_value v ofs st).1 = .ok () := by
  simp only [set_rgbleds_value]
  rw [if_neg (by omega), if_neg (by simp [h4])]
  simp [if_neg (by omega : ¬ ofs = 0), hm]

/-- `on` never touches `_rgbleds_start_index`. -/
theorem on_startIndex (led : RGBLED) (c : Int) (st : RGBState) :
    (led.on c st).2.2.startIndex = st.startIndex := by
  by_cases hc : c < 0 ∨ 8 ≤ c
  · simp [RGBLED.on, hc]
  by_cases ho : led.offset > 0
  · rcases h : set_rgbleds_value (pyAndNot led.val 7 ||| c.toNat) led.offset st with ⟨e, st'⟩
    have h3 := set_rgbleds_value_startIndex (pyAndNot led.val 7 ||| c.toNat) led.offset st
    rw [h] at h3
    replace h3 : st'.startIndex = st.startIndex := h3
    cases e <;> simp [RGBLED.on, hc, ho, h, h3]
  · rcases hs : shiftOf led.index st.startIndex with e | sh
    · simp [RGBLED.on, hc, ho, hs]
    · rcases h : set_rgbleds_value
          (pyAndNot st.rgbledsVal (7 <<< sh) ||| (c.toNat <<< sh)) 0 st with ⟨e, st'⟩
      have h3 := set_rgbleds_value_startIndex
        (pyAndNot st.rgbledsVal (7 <<< sh) ||| (c.toNat <<< sh)) 0 st
      rw [h] at h3
      replace h3 : st'.startIndex = st.startIndex := h3
      cases e <;> simp [RGBLED.on, hc, ho, hs, h, h3]

/-- `off` never touches `_rgbleds_start_index`. -/
theorem off_startIndex (led : RGBLED) (st : RGBState) :
    (led.off st).2.2.startIndex = st.startIndex := by
  by_cases ho : led.offset > 0
  · rcases h : set_rgbleds_value (pyAndNot led.val 7) led.offset st with ⟨e, st'⟩
    have h3 := set_rgbleds_value_startIndex (pyAndNot led.val 7) led.offset st
    rw [h] at h3
    replace h3 : st'.startIndex = st.startIndex := h3
    cases e <;> simp [RGBLED.off, ho, h, h3]
  · rcases hs : shiftOf led.index st.startIndex with e | sh
    · simp [RGBLED.off, ho, hs]
    · rcases h : set_rgbleds_value (pyAndNot st.rgbledsVal (7 <<< sh)) 0 st with ⟨e, st'⟩
      have h3 := set_rgbleds_value_startIndex (pyAndNot st.rgbledsVal (7 <<< sh)) 0 st
      rw [h] at h3
      replace h3 : st'.startIndex = st.startIndex := h3
      cases e <;> simp [RGBLED.off, ho, hs, h, h3]

/-- `on` changes neither the index nor the offset of its instance. -/
theorem on_led_fields (led : RGBLED) (c : Int) (st : RGBState) :
    (led.on c st).2.1.index = led.index ∧ (led.on c st).2.1.offset = led.offset := by
  by_cases hc : c < 0 ∨ 8 ≤ c
  · simp [RGBLED.on, hc]
  by_cases ho : led.offset > 0
  · rcases h : set_rgbleds_value (pyAndNot led.val 7 ||| c.toNat) led.offset st with ⟨e, st'⟩
    cases e <;> simp [RGBLED.on, hc, ho, h]
  · rcases hs : shiftOf led.index st.startIndex with e | sh
    · simp [RGBLED.on, hc, ho, hs]
    · rcases h : set_rgbleds_value
          (pyAndNot st.rgbledsVal (7 <<< sh) ||| (c.toNat <<< sh)) 0 st with ⟨e, st'⟩
      cases e <;> simp [RGBLED.on, hc, ho, hs, h]

/-- `off` changes neither the index nor the offset of its instance. -/
theorem off_led_fields (led : RGBLED) (st : RGBState) :
    (led.off st).2.1.index = led.index ∧ (led.off st).2.1.offset = led.offset := by
  by_cases ho : led.offset > 0
  · rcases h : set_rgbleds_value (pyAndNot led.val 7) led.offset st with ⟨e, st'⟩
    cases e <;> simp [RGBLED.off, ho, h]
  · rcases hs : shiftOf led.index st.startIndex with e | sh
    · simp [RGBLED.off, ho, hs]
    · rcases h : set_rgbleds_value (pyAndNot st.rgbledsVal (7 <<< sh)) 0 st with ⟨e, st'⟩
      cases e <;> simp [RGBLED.off, ho, hs, h]

/-- `read` depends only on `_rgbleds_val` and `_rgbleds_start_index`. -/
theorem read_congr (led : RGBLED) (st1 st2 : RGBState)
    (hv : st1.rgbledsVal = st2.rgbledsVal)
    (hs : st1.startIndex = st2.startIndex) :
    led.read st1 = led.read st2 := by
  simp [RGBLED.read, hv, hs]

/-- Full description of `on` for an instance with a positive offset: the
local value becomes `self._val & ~0x7 | color`, the shared value and the
baseline are untouched, and with a valid stored offset and an initialised
`_mmio` the call succeeds. -/
theorem on_pos_spec (led : RGBLED) (c : Int) (st : RGBState)
    (ho : led.offset > 0) (hc0 : 0 ≤ c) (hc8 : c < 8) :
    (led.on c st).2.1 = { led with val := pyAndNot led.val 7 ||| c.toNat } ∧
    (led.on c st).2.2.rgbledsVal = st.rgbledsVal ∧
    (led.on c st).2.2.startIndex = st.startIndex ∧
    (led.offset % 4 = 0 → st.mmioInit = true → (led.on c st).1 = .ok ()) := by
  have hc : ¬ (c < 0 ∨ 8 ≤ c) := by omega
  rcases h : set_rgbleds_value (pyAndNot led.val 7 ||| c.toNat) led.offset st
    with ⟨e, st'⟩
  have hv := set_rgbleds_value_ne_zero (pyAndNot led.val 7 ||| c.toNat)
    led.offset st (by omega)
  rw [h] at hv
  replace hv : st'.rgbledsVal = st.rgbledsVal := hv
  have hsi := set_rgbleds_value_startIndex (pyAndNot led.val 7 ||| c.toNat)
    led.offset st
  rw [h] at hsi
  replace hsi : st'.startIndex = st.startIndex := hsi
  refine ⟨?_, ?_, ?_, ?_⟩
  · cases e <;> simp [RGBLED.on, hc, ho, h]
  · cases e <;> simp [RGBLED.on, hc, ho, h, hv]
  · cases e <;> simp [RGBLED.on, hc, ho, h, hsi]
  · intro h4 hm
    have hok := set_rgbleds_value_pos_ok (pyAndNot led.val 7 ||| c.toNat)
      led.offset st ho h4 hm
    rw [h] at hok
    replace hok : e = .ok () := hok
    subst hok
    simp [RGBLED.on, hc, ho, h]

/-- Full description of `on` for a zero-offset instance whose index is at or
above the (finite) baseline: the instance is unchanged, the shared value
gets the instance's 3-bit field replaced by the color, the baseline is
untouched, and with an initialised `_mmio` the call succeeds. -/
theorem on_zero_spec (led : RGBLED) (c : Int) (st : RGBState) (s : Int)
    (ho : led.offset = 0) (hc0 : 0 ≤ c) (hc8 : c < 8)
    (hs : st.startIndex = some s) (hle : s ≤ led.index) :
    (led.on c st).2.1 = led ∧
    (led.on c st).2.2.rgbledsVal =
      (pyAndNot st.rgbledsVal (7 <<< ((led.index - s) * 3).toNat) |||
        (c.toNat <<< ((led.index - s) * 3).toNat)) ∧
    (led.on c st).2.2.startIndex = st.startIndex ∧
    (st.mmioInit = true → (led.on c st).1 = .ok ()) := by
  have hc : ¬ (c < 0 ∨ 8 ≤ c) := by omega
  have ho2 : ¬ led.offset > 0 := by omega
  have hshift : shiftOf led.index st.startIndex =
      .ok (((led.index - s) * 3).toNat) := by
    rw [hs]
    simp only [shiftOf]
    rw [if_neg (by omega)]
  rcases h : set_rgbleds_value
      (pyAndNot st.rgbledsVal (7 <<< ((led.index - s) * 3).toNat) |||
        (c.toNat <<< ((led.index - s) * 3).toNat)) 0 st with ⟨e, st'⟩
  have hv := set_rgbleds_value_zero
    (pyAndNot st.rgbledsVal (7 <<< ((led.index - s) * 3).toNat) |||
      (c.toNat <<< ((led.index - s) * 3).toNat)) st
  rw [h] at hv
  replace hv : st'.rgbledsVal = _ := hv
  have hsi := set_rgbleds_value_startIndex
    (pyAndNot st.rgbledsVal (7 <<< ((led.index - s) * 3).toNat) |||
      (c.toNat <<< ((led.index - s) * 3).toNat)) 0 st
  rw [h] at hsi
  replace hsi : st'.startIndex = st.startIndex := hsi
  refine ⟨?_, ?_, ?_, ?_⟩
  · cases e <;> simp [RGBLED.on, hc, ho2, hshift, h]
  · cases e <;> simp [RGBLED.on, hc, ho2, hshift, h, hv]
  · cases e <;> simp [RGBLED.on, hc, ho2, hshift, h, hsi]
  · intro hm
    have hok := set_rgbleds_value_zero_ok
      (pyAndNot st.rgbledsVal (7 <<< ((led.index - s) * 3).toNat) |||
        (c.toNat <<< ((led.index - s) * 3).toNat)) st hm
    rw [h] at hok
    replace hok : e = .ok () := hok
    subst hok
    simp [RGBLED.on, hc, ho2, hshift, h]

/-- Full description of `off` for an instance with a positive offset. -/
theorem off_pos_spec (led : RGBLED) (st : RGBState)
    (ho : led.offset > 0) :
    (led.off st).2.1 = { led with val := pyAndNot led.val 7 } ∧
    (led.off st).2.2.rgbledsVal = st.rgbledsVal ∧
    (led.off st).2.2.startIndex = st.startIndex ∧
    (led.offset % 4 = 0 → st.mmioInit = true → (led.off st).1 = .ok ()) := by
  rcases h : set_rgbleds_value (pyAndNot led.val 7) led.offset st with ⟨e, st'⟩
  have hv := set_rgbleds_value_ne_zero (pyAndNot led.val 7) led.offset st (by omega)
  rw [h] at hv
  replace hv : st'.rgbledsVal = st.rgbledsVal := hv
  have hsi := set_rgbleds_value_startIndex (pyAndNot led.val 7) led.offset st
  rw [h] at hsi
  replace hsi : st'.startIndex = st.startIndex := hsi
  refine ⟨?_, ?_, ?_, ?_⟩
  · cases e <;> simp [RGBLED.off, ho, h]
  · cases e <;> simp [RGBLED.off, ho, h, hv]
  · cases e <;> simp [RGBLED.off, ho, h, hsi]
  · intro h4 hm
    have hok := set_rgbleds_value_pos_ok (pyAndNot led.val 7) led.offset st ho h4 hm
    rw [h] at hok
    replace hok : e = .ok () := hok
    subst hok
    simp [RGBLED.off, ho, h]

/-- Full description of `off` for a zero-offset instance whose index is at
or above the (finite) baseline. -/
theorem off_zero_spec (led : RGBLED) (st : RGBState) (s : Int)
    (ho : led.offset = 0)
    (hs : st.startIndex = some s) (hle : s ≤ led.index) :
    (led.off st).2.1 = led ∧
    (led.off st).2.2.rgbledsVal =
      pyAndNot st.rgbledsVal (7 <<< ((led.index - s) * 3).toNat) ∧
    (led.off st).2.2.startIndex = st.startIndex ∧
    (st.mmioInit = true → (led.off st).1 = .ok ()) := by
  have ho2 : ¬ led.offset > 0 := by omega
  have hshift : shiftOf led.index st.startIndex =
      .ok (((led.index - s) * 3).toNat) := by
    rw [hs]
    simp only [shiftOf]
    rw [if_neg (by omega)]
  rcases h : set_rgbleds_value
      (pyAndNot st.rgbledsVal (7 <<< ((led.index - s) * 3).toNat)) 0 st
    with ⟨e, st'⟩
  have hv := set_rgbleds_value_zero
    (pyAndNot st.rgbledsVal (7 <<< ((led.index - s) * 3).toNat)) st
  rw [h] at hv
  replace hv : st'.rgbledsVal = _ := hv
  have hsi := set_rgbleds_value_startIndex
    (pyAndNot st.rgbledsVal (7 <<< ((led.index - s) * 3).toNat)) 0 st
  rw [h] at hsi
  replace hsi : st'.startIndex = st.startIndex := hsi
  refine ⟨?_, ?_, ?_, ?_⟩
  · cases e <;> simp [RGBLED.off, ho2, hshift, h]
  · cases e <;> simp [RGBLED.off, ho2, hshift, h, hv]
  · cases e <;> simp [RGBLED.off, ho2, hshift, h, hsi]
  · intro hm
    have hok := set_rgbleds_value_zero_ok
      (pyAndNot st.rgbledsVal (7 <<< ((led.index - s) * 3).toNat)) st hm
    rw [h] at hok
    replace hok : e = .ok () := hok
    subst hok
    simp [RGBLED.off, ho2, hshift, h]

/-- `read` on a positive-offset instance returns the local cached value. -/
theorem read_pos (led : RGBLED) (st : RGBState) (ho : led.offset > 0) :
    led.read st = .ok led.val := by
  simp [RGBLED.read, ho]

/-- `read` on a zero-offset instance extracts its 3-bit field from the
shared value. -/
theorem read_zero (led : RGBLED) (st : RGBState) (s : Int)
    (ho : led.offset = 0) (hs : st.startIndex = some s) (hle : s ≤ led.index) :
    led.read st =
      .ok ((st.rgbledsVal >>> ((led.index - s) * 3).toNat) &&& 7) := by
  have ho2 : ¬ led.offset > 0 := by omega
  have hshift : shiftOf led.index st.startIndex =
      .ok (((led.index - s) * 3).toNat) := by
    rw [hs]
    simp only [shiftOf]
    rw [if_neg (by omega)]
  simp [RGBLED.read, ho2, hshift]

/-! ### Lemmas about construction and traces -/

/-- `optMin` with infinity on the right. -/
theorem optMin_none_right (a : Option Int) : optMin a none = a := by
  cases a <;> rfl

/-- `optMin` is associative. -/
theorem optMin_assoc (a b c : Option Int) :
    optMin (optMin a b) c = optMin a (optMin b c) := by
  cases a <;> cases b <;> cases c <;> simp [optMin, min_assoc]

/-- The minimum is below its left argument. -/
theorem startLe_optMin_left (a b : Option Int) : startLe (optMin a b) a := by
  cases a <;> cases b <;> simp [optMin, startLe]

/-- The class-level state produced by the constructor, for any outcome:
`_mmio` is (now) initialised, and the baseline is lowered to `index` exactly
when the offset is zero and the index is below the current baseline. -/
theorem init_snd (i ofs : Int) (st : RGBState) :
    (RGBLED.init i ofs st).2 =
      if ofs = 0 ∧ ltStart i st.startIndex then
        { st with mmioInit := true, startIndex := some i }
      else { st with mmioInit := true } := by
  have hst1 : (if st.mmioInit then st else { st with mmioInit := true }) =
      { st with mmioInit := true } := by
    split
    · rename_i hm
      cases st
      simp_all
    · rfl
  simp only [RGBLED.init, hst1]
  split
  · rfl
  split <;> rfl

/-- Baseline bookkeeping of the constructor: as an extended index,
`_rgbleds_start_index` becomes the minimum of its old value and the new
index when the offset is zero, and is untouched otherwise — whether or not
the construction raises. -/
theorem init_startIndex (i ofs : Int) (st : RGBState) :
    (RGBLED.init i ofs st).2.startIndex =
      optMin st.startIndex (if ofs = 0 then some i else none) := by
  rw [init_snd]
  by_cases ho : ofs = 0
  · subst ho
    cases hsi : st.startIndex with
    | none => simp [ltStart, optMin, hsi]
    | some s =>
        by_cases hlt : i < s
        · simp [ltStart, optMin, hsi, hlt, min_eq_right (le_of_lt hlt)]
        · have h1 : ltStart i (some s) = false := by
            simp [ltStart]
            omega
          simp [optMin, hsi, h1, min_eq_left (by omega : s ≤ i)]
  · simp [ho, optMin_none_right]

/-- The constructor never touches `_rgbleds_val`. -/
theorem init_rgbledsVal (i ofs : Int) (st : RGBState) :
    (RGBLED.init i ofs st).2.rgbledsVal = st.rgbledsVal := by
  rw [init_snd]
  split <;> rfl

/-- The constructor never touches the `_mmio` write log. -/
theorem init_mmioLog (i ofs : Int) (st : RGBState) :
    (RGBLED.init i ofs st).2.mmioLog = st.mmioLog := by
  rw [init_snd]
  split <;> rfl

/-- One-step form of `specSharedMin` on a construction event. -/
theorem specSharedMin_construct (i o : Int) (evs : List Event) :
    specSharedMin (.construct i o :: evs) =
      optMin (if o = 0 then some i else none) (specSharedMin evs) := by
  by_cases ho : o = 0
  · simp only [specSharedMin, ho, if_pos rfl, optMin]
    cases specSharedMin evs <;> rfl
  · simp [specSharedMin, ho, optMin]

/-- Across any event trace, the baseline is the minimum (as extended
indices) of the starting baseline and the indices of the trace's
zero-offset constructions. -/
theorem runEvents_startIndex (evs : List Event) (leds : List RGBLED)
    (st : RGBState) :
    (runEvents evs (leds, st)).2.startIndex =
      optMin st.startIndex (specSharedMin evs) := by
  induction evs generalizing leds st with
  | nil => simp [runEvents, specSharedMin, optMin_none_right]
  | cons e evs ih =>
    cases e with
    | construct i o =>
        rcases h : RGBLED.init i o st with ⟨er, st'⟩
        have h2 := init_startIndex i o st
        rw [h] at h2
        replace h2 : st'.startIndex =
          optMin st.startIndex (if o = 0 then some i else none) := h2
        rw [specSharedMin_construct, ← optMin_assoc, ← h2]
        cases er <;> simp only [runEvents, h] <;> rw [ih]
    | callOn k c =>
        cases hk : leds[k]? with
        | some led =>
            simp only [runEvents, hk]
            rw [ih, on_startIndex]
            simp [specSharedMin]
        | none =>
            simp only [runEvents, hk]
            rw [ih]
            simp [specSharedMin]
    | callOff k =>
        cases hk : leds[k]? with
        | some led =>
            simp only [runEvents, hk]
            rw [ih, off_startIndex]
            simp [specSharedMin]
        | none =>
            simp only [runEvents, hk]
            rw [ih]
            simp [specSharedMin]

/-- Across any event trace, the baseline can only go down. -/
theorem runEvents_startLe (evs : List Event) (leds : List RGBLED)
    (st : RGBState) :
    startLe (runEvents evs (leds, st)).2.startIndex st.startIndex := by
  rw [runEvents_startIndex]
  exact startLe_optMin_left _ _

/-- Running a concatenation of traces runs them in sequence. -/
theorem runEvents_append (evs1 evs2 : List Event)
    (acc : List RGBLED × RGBState) :
    runEvents (evs1 ++ evs2) acc = runEvents evs2 (runEvents evs1 acc) := by
  induction evs1 generalizing acc with
  | nil => rfl
  | cons e evs ih =>
    rcases acc with ⟨leds, st⟩
    cases e with
    | construct i o =>
        rcases h : RGBLED.init i o st with ⟨er, st'⟩
        cases er <;> simp only [List.cons_append, runEvents, h] <;> exact ih _
    | callOn k c =>
        cases hk : leds[k]? <;> simp only [List.cons_append, runEvents, hk] <;>
          exact ih _
    | callOff k =>
        cases hk : leds[k]? <;> simp only [List.cons_append, runEvents, hk] <;>
          exact ih _

/-- Construction preserves the baseline bound of every existing instance. -/
theorem init_preserves_inv (i o : Int) (st : RGBState) (led : RGBLED)
    (h : LedInv led st) : LedInv led (RGBLED.init i o st).2 := by
  intro ho
  rcases h ho with ⟨s, hs, hle⟩
  rw [init_startIndex, hs]
  cases hy : (if o = 0 then some i else none) with
  | none => exact ⟨s, rfl, hle⟩
  | some j =>
      exact ⟨min s j, rfl, le_trans (min_le_left s j) hle⟩

/-- A successfully constructed zero-offset instance satisfies the baseline
bound in the resulting state. -/
theorem init_ok_inv (i o : Int) (st : RGBState) (led : RGBLED)
    (st' : RGBState) (h : RGBLED.init i o st = (.ok led, st')) :
    LedInv led st' := by
  have hled : led = { index := i, offset := o, val := 0 } := by
    simp only [RGBLED.init] at h
    split at h
    · exact absurd (congrArg Prod.fst h) (by simp)
    split at h
    · exact absurd (congrArg Prod.fst h) (by simp)
    · have := congrArg Prod.fst h
      simp at this
      exact this.symm
  have hst' : st' = (RGBLED.init i o st).2 := by rw [h]
  intro ho
  rw [hled] at ho
  simp at ho
  subst ho
  rw [hst', init_startIndex, if_pos rfl]
  cases hy : st.startIndex with
  | none => exact ⟨i, by simp [optMin], by rw [hled]⟩
  | some s =>
      refine ⟨min s i, by simp [optMin], ?_⟩
      rw [hled]
      simp [min_le_right s i]

/-- `on` preserves the baseline bound of every instance. -/
theorem on_preserves_inv (led0 led : RGBLED) (c : Int) (st : RGBState)
    (h : LedInv led st) : LedInv led (led0.on c st).2.2 := by
  intro ho
  rcases h ho with ⟨s, hs, hle⟩
  exact ⟨s, by rw [on_startIndex]; exact hs, hle⟩

/-- `off` preserves the baseline bound of every instance. -/
theorem off_preserves_inv (led0 led : RGBLED) (st : RGBState)
    (h : LedInv led st) : LedInv led (led0.off st).2.2 := by
  intro ho
  rcases h ho with ⟨s, hs, hle⟩
  exact ⟨s, by rw [off_startIndex]; exact hs, hle⟩

/-- The instance returned by `on` still satisfies the baseline bound. -/
theorem on_self_inv (led : RGBLED) (c : Int) (st : RGBState)
    (h : LedInv led st) : LedInv ((led.on c st).2.1) ((led.on c st).2.2) := by
  intro ho
  rw [(on_led_fields led c st).2] at ho
  rcases h ho with ⟨s, hs, hle⟩
  refine ⟨s, by rw [on_startIndex]; exact hs, ?_⟩
  rw [(on_led_fields led c st).1]
  exact hle

/-- The instance returned by `off` still satisfies the baseline bound. -/
theorem off_self_inv (led : RGBLED) (st : RGBState)
    (h : LedInv led st) : LedInv ((led.off st).2.1) ((led.off st).2.2) := by
  intro ho
  rw [(off_led_fields led st).2] at ho
  rcases h ho with ⟨s, hs, hle⟩
  refine ⟨s, by rw [off_startIndex]; exact hs, ?_⟩
  rw [(off_led_fields led st).1]
  exact hle

/-- Trace invariant: along any event trace, every constructed zero-offset
instance keeps its index at or above the (finite) baseline. -/
theorem runEvents_inv (evs : List Event) (leds : List RGBLED) (st : RGBState)
    (h : ∀ led ∈ leds, LedInv led st) :
    ∀ led ∈ (runEvents evs (leds, st)).1,
      LedInv led (runEvents evs (leds, st)).2 := by
  induction evs generalizing leds st with
  | nil => simpa [runEvents] using h
  | cons e evs ih =>
    cases e with
    | construct i o =>
        rcases hinit : RGBLED.init i o st with ⟨er, st'⟩
        cases er with
        | ok led0 =>
            simp only [runEvents, hinit]
            apply ih
            intro led hmem
            rcases List.mem_append.mp hmem with hmem | hmem
            · have hpres := init_preserves_inv i o st led (h led hmem)
              rw [hinit] at hpres
              exact hpres
            · have hnew := init_ok_inv i o st led0 st' hinit
              rw [List.mem_singleton] at hmem
              subst hmem
              exact hnew
        | error e0 =>
            simp only [runEvents, hinit]
            apply ih
            intro led hmem
            have hpres := init_preserves_inv i o st led (h led hmem)
            rw [hinit] at hpres
            exact hpres
    | callOn k c =>
        cases hk : leds[k]? with
        | some led0 =>
            simp only [runEvents, hk]
            apply ih
            intro led hmem
            rcases List.mem_or_eq_of_mem_set hmem with hmem | hmem
            · exact on_preserves_inv led0 led c st (h led hmem)
            · subst hmem
              exact on_self_inv led0 c st (h led0 (List.getElem?_mem hk))
        | none =>
            simp only [runEvents, hk]
            exact ih leds st h
    | callOff k =>
        cases hk : leds[k]? with
        | some led0 =>
            simp only [runEvents, hk]
            apply ih
            intro led hmem
            rcases List.mem_or_eq_of_mem_set hmem with hmem | hmem
            · exact off_preserves_inv led0 led st (h led hmem)
            · subst hmem
              exact off_self_inv led0 st (h led0 (List.getElem?_mem hk))
        | none =>
            simp only [runEvents, hk]
            exact ih leds st h

/-! ### Claims -/

/-- C3: for every color in `[0,8)` and every instance — both `offset == 0`
and `offset != 0` — in a reachable configuration (validated stored offset,
initialised shared accessor, 3-bit local cache, and for a zero-offset
instance a finite baseline at or below its index), `on(color)` succeeds and
an immediate `read()` on the same instance returns the color. -/
theorem C3_on_read_roundtrip (led : RGBLED) (st : RGBState) (color : Int)
    (hc0 : 0 ≤ color) (hc8 : color < 8)
    (hmm : st.mmioInit = true)
    (hofs0 : 0 ≤ led.offset) (hofs4 : led.offset % 4 = 0)
    (hval : led.val < 8)
    (hstart : led.offset = 0 →
      ∃ s : Int, st.startIndex = some s ∧ s ≤ led.index) :
    (led.on color st).1 = .ok () ∧
    (led.on color st).2.1.read (led.on color st).2.2 = .ok color.toNat := by
  by_cases ho : led.offset > 0
  · obtain ⟨hled, hv, hsi, hok⟩ := on_pos_spec led color st ho hc0 hc8
    refine ⟨hok hofs4 hmm, ?_⟩
    rw [hled, read_pos _ _ (by simpa using ho)]
    simp [pyAndNot_seven_of_lt led.val hval]
  · have ho0 : led.offset = 0 := by omega
    obtain ⟨s, hs, hle⟩ := hstart ho0
    obtain ⟨hled, hv, hsi, hok⟩ := on_zero_spec led color st s ho0 hc0 hc8 hs hle
    refine ⟨hok hmm, ?_⟩
    rw [hled, read_zero led _ s ho0 (by rw [hsi, hs]) hle, hv]
    exact congrArg Except.ok
      (extract_own_field st.rgbledsVal color.toNat _ (by omega))

/-- Witness for C3: a zero-offset instance at index 0 with baseline 0,
turned on with MAGENTA (5), reads back 5. -/
theorem C3_witness :
    (({ index := 0, offset := 0, val := 0 } : RGBLED).on 5
        { mmioInit := true, mmioLog := [], rgbledsVal := 0,
          startIndex := some 0 }).1 = .ok () ∧
    (({ index := 0, offset := 0, val := 0 } : RGBLED).on 5
        { mmioInit := true, mmioLog := [], rgbledsVal := 0,
          startIndex := some 0 }).2.1.read
      (({ index := 0, offset := 0, val := 0 } : RGBLED).on 5
        { mmioInit := true, mmioLog := [], rgbledsVal := 0,
          startIndex := some 0 }).2.2 = .ok (5 : Int).toNat :=
  C3_on_read_roundtrip { index := 0, offset := 0, val := 0 }
    { mmioInit := true, mmioLog := [], rgbledsVal := 0, startIndex := some 0 }
    5 (by decide) (by decide) rfl (by decide) (by decide) (by decide)
    (fun _ => ⟨0, rfl, by decide⟩)

/-- C9: for every instance — both `offset == 0` and `offset != 0` — in a
reachable configuration and with any prior 3-bit color state, `off()`
succeeds and an immediate `read()` on the same instance returns 0
(CLEAR). -/
theorem C9_off_read_clear (led : RGBLED) (st : RGBState)
    (hmm : st.mmioInit = true)
    (hofs0 : 0 ≤ led.offset) (hofs4 : led.offset % 4 = 0)
    (hval : led.val < 8)
    (hstart : led.offset = 0 →
      ∃ s : Int, st.startIndex = some s ∧ s ≤ led.index) :
    (led.off st).1 = .ok () ∧
    (led.off st).2.1.read (led.off st).2.2 = .ok 0 := by
  by_cases ho : led.offset > 0
  · obtain ⟨hled, hv, hsi, hok⟩ := off_pos_spec led st ho
    refine ⟨hok hofs4 hmm, ?_⟩
    rw [hled, read_pos _ _ (by simpa using ho)]
    simp [pyAndNot_seven_of_lt led.val hval]
  · have ho0 : led.offset = 0 := by omega
    obtain ⟨s, hs, hle⟩ := hstart ho0
    obtain ⟨hled, hv, hsi, hok⟩ := off_zero_spec led st s ho0 hs hle
    refine ⟨hok hmm, ?_⟩
    rw [hled, read_zero led _ s ho0 (by rw [hsi, hs]) hle, hv]
    exact congrArg Except.ok (extract_cleared_field st.rgbledsVal _)

/-- Witness for C9: a dedicated-slot instance at offset 4 holding WHITE (7)
reads 0 after `off()`. -/
theorem C9_witness :
    (({ index := 5, offset := 4, val := 7 } : RGBLED).off
        { mmioInit := true, mmioLog := [], rgbledsVal := 0,
          startIndex := none }).1 = .ok () ∧
    (({ index := 5, offset := 4, val := 7 } : RGBLED).off
        { mmioInit := true, mmioLog := [], rgbledsVal := 0,
          startIndex := none }).2.1.read
      (({ index := 5, offset := 4, val := 7 } : RGBLED).off
        { mmioInit := true, mmioLog := [], rgbledsVal := 0,
          startIndex := none }).2.2 = .ok 0 :=
  C9_off_read_clear { index := 5, offset := 4, val := 7 }
    { mmioInit := true, mmioLog := [], rgbledsVal := 0, startIndex := none }
    rfl (by decide) (by decide) (by decide)
    (fun h => absurd h (by decide))

/-- C4: for two zero-offset instances with distinct indices, both bounded
below by the (unchanged) finite baseline, setting a color on one does not
alter the other's `read()`; and in the particular scenario where index 0 is
set to RED(4) and index 1 to GREEN(2) after both are constructed from the
initial state, index 0 reads 4, index 1 reads 2, and the shared register
value is `4 ||| (2 <<< 3)`. -/
theorem C4_bitfield_isolation (a b : RGBLED) (st : RGBState)
    (color s : Int)
    (ha : a.offset = 0) (hb : b.offset = 0) (hne : a.index ≠ b.index)
    (hc0 : 0 ≤ color) (hc8 : color < 8)
    (hs : st.startIndex = some s) (hsa : s ≤ a.index) (hsb : s ≤ b.index) :
    b.read (a.on color st).2.2 = b.read st ∧
    (({ index := 0, offset := 0, val := 0 } : RGBLED).read
        ((({ index := 1, offset := 0, val := 0 } : RGBLED).on 2
          ((({ index := 0, offset := 0, val := 0 } : RGBLED).on 4
            (RGBLED.init 1 0 (RGBLED.init 0 0 initState).2).2).2.2)).2.2) =
        .ok 4 ∧
      ({ index := 1, offset := 0, val := 0 } : RGBLED).read
        ((({ index := 1, offset := 0, val := 0 } : RGBLED).on 2
          ((({ index := 0, offset := 0, val := 0 } : RGBLED).on 4
            (RGBLED.init 1 0 (RGBLED.init 0 0 initState).2).2).2.2)).2.2) =
        .ok 2 ∧
      ((({ index := 1, offset := 0, val := 0 } : RGBLED).on 2
          ((({ index := 0, offset := 0, val := 0 } : RGBLED).on 4
            (RGBLED.init 1 0 (RGBLED.init 0 0 initState).2).2).2.2)).2.2).rgbledsVal =
        (4 ||| (2 <<< 3))) := by
  constructor
  · obtain ⟨hled, hv, hsi, _⟩ := on_zero_spec a color st s ha hc0 hc8 hs hsa
    rw [read_zero b _ s hb (by rw [hsi, hs]) hsb, read_zero b st s hb hs hsb, hv]
    exact congrArg Except.ok
      (extract_other_field st.rgbledsVal color.toNat _ _ (by omega) (by omega))
  · exact ⟨rfl, rfl, by decide⟩

/-- Witness for C4: with baseline 0 and shared value 4 (RED in the field of
index 0), GREEN written through the index-0 instance leaves the index-1
instance's `read()` unchanged. -/
theorem C4_witness :
    ({ index := 1, offset := 0, val := 0 } : RGBLED).read
        (({ index := 0, offset := 0, val := 0 } : RGBLED).on 2
          { mmioInit := true, mmioLog := [], rgbledsVal := 4,
            startIndex := some 0 }).2.2 =
      ({ index := 1, offset := 0, val := 0 } : RGBLED).read
        { mmioInit := true, mmioLog := [], rgbledsVal := 4,
          startIndex := some 0 } :=
  (C4_bitfield_isolation { index := 0, offset := 0, val := 0 }
    { index := 1, offset := 0, val := 0 }
    { mmioInit := true, mmioLog := [], rgbledsVal := 4, startIndex := some 0 }
    2 0 rfl rfl (by decide) (by decide) (by decide) rfl (by decide)
    (by decide)).1

/-- C5: operations (`on`, `off`, `write`) on an instance with a nonzero
(positive) offset never modify the shared cached register value; the
register-write primitive updates the shared cached value when its offset
argument is 0 and leaves it unchanged when it is not; and distinct
nonzero-offset instances do not affect each other's `read()` results. -/
theorem C5_nonzero_offset_frame (v : Nat) (ofs : Int) (led a b : RGBLED)
    (c : Int) (st : RGBState)
    (hofs : ofs ≠ 0) (hled : led.offset > 0) (ha : a.offset > 0)
    (hb : b.offset > 0) :
    (set_rgbleds_value v ofs st).2.rgbledsVal = st.rgbledsVal ∧
    (set_rgbleds_value v 0 st).2.rgbledsVal = v ∧
    (led.on c st).2.2.rgbledsVal = st.rgbledsVal ∧
    (led.off st).2.2.rgbledsVal = st.rgbledsVal ∧
    (led.write c st).2.2.rgbledsVal = st.rgbledsVal ∧
    b.read (a.on c st).2.2 = b.read st ∧
    b.read (a.off st).2.2 = b.read st := by
  have hon : ∀ (l : RGBLED) (cc : Int), l.offset > 0 →
      (l.on cc st).2.2.rgbledsVal = st.rgbledsVal := by
    intro l cc hl
    by_cases hcc : cc < 0 ∨ 8 ≤ cc
    · simp [RGBLED.on, hcc]
    · exact (on_pos_spec l cc st hl (by omega) (by omega)).2.1
  refine ⟨set_rgbleds_value_ne_zero v ofs st hofs,
    set_rgbleds_value_zero v st, hon led c hled,
    (off_pos_spec led st hled).2.1, ?_, ?_, ?_⟩
  · simpa [RGBLED.write] using hon led c hled
  · rw [read_pos b _ hb, read_pos b st hb]
  · rw [read_pos b _ hb, read_pos b st hb]

/-- Witness for C5 at offset 8 and a dedicated-slot instance at offset 4. -/
theorem C5_witness :
    (set_rgbleds_value 3 8 initState).2.rgbledsVal = initState.rgbledsVal ∧
    (set_rgbleds_value 3 0 initState).2.rgbledsVal = 3 ∧
    (({ index := 0, offset := 4, val := 0 } : RGBLED).on 6
      initState).2.2.rgbledsVal = initState.rgbledsVal ∧
    (({ index := 0, offset := 4, val := 0 } : RGBLED).off
      initState).2.2.rgbledsVal = initState.rgbledsVal ∧
    (({ index := 0, offset := 4, val := 0 } : RGBLED).write 6
      initState).2.2.rgbledsVal = initState.rgbledsVal ∧
    ({ index := 1, offset := 8, val := 2 } : RGBLED).read
        (({ index := 0, offset := 4, val := 0 } : RGBLED).on 6
          initState).2.2 =
      ({ index := 1, offset := 8, val := 2 } : RGBLED).read initState ∧
    ({ index := 1, offset := 8, val := 2 } : RGBLED).read
        (({ index := 0, offset := 4, val := 0 } : RGBLED).off
          initState).2.2 =
      ({ index := 1, offset := 8, val := 2 } : RGBLED).read initState :=
  C5_nonzero_offset_frame 3 8 { index := 0, offset := 4, val := 0 }
    { index := 0, offset := 4, val := 0 } { index := 1, offset := 8, val := 2 }
    6 initState (by decide) (by decide) (by decide) (by decide)

/-- C7: for every integer color outside `[0,8)`, `on(color)` raises
`ValueError`, on every instance regardless of offset and in every state,
and `write(color)` does the same since it delegates to `on`. -/
theorem C7_invalid_color (led : RGBLED) (st : RGBState) (c : Int)
    (hc : c < 0 ∨ 8 ≤ c) :
    (led.on c st).1 =
      .error (.valueError "color should be an integer value from 0 to 7.") ∧
    (led.write c st).1 =
      .error (.valueError "color should be an integer value from 0 to 7.") := by
  constructor <;> simp [RGBLED.on, RGBLED.write, hc]

/-- Witness for C7 at color 8. -/
theorem C7_witness :
    (({ index := 0, offset := 0, val := 0 } : RGBLED).on 8 initState).1 =
      .error (.valueError "color should be an integer value from 0 to 7.") ∧
    (({ index := 0, offset := 0, val := 0 } : RGBLED).write 8 initState).1 =
      .error (.valueError "color should be an integer value from 0 to 7.") :=
  C7_invalid_color { index := 0, offset := 0, val := 0 } initState 8
    (by decide)

/-- C8: for every offset that is negative or not a multiple of 4, the
constructor raises `ValueError`, and so does the internal register-write
primitive. -/
theorem C8_invalid_offset (i ofs : Int) (v : Nat) (st : RGBState)
    (ho : ofs < 0 ∨ ofs % 4 ≠ 0) :
    (∃ msg, (RGBLED.init i ofs st).1 = .error (.valueError msg)) ∧
    (∃ msg, (set_rgbleds_value v ofs st).1 = .error (.valueError msg)) := by
  by_cases h0 : ofs < 0
  · exact ⟨⟨"Offset cannot be a negative value.", by simp [RGBLED.init, h0]⟩,
      ⟨"Offset cannot be a negative value.", by simp [set_rgbleds_value, h0]⟩⟩
  · have h4 : ofs % 4 ≠ 0 := by
      rcases ho with h | h
      · omega
      · exact h
    exact ⟨⟨"Offset must be a multiple of 4.",
        by simp [RGBLED.init, h0, h4]⟩,
      ⟨"Offset must be a multiple of 4.",
        by simp [set_rgbleds_value, h0, h4]⟩⟩

/-- Witness for C8 at offset 2. -/
theorem C8_witness :
    (∃ msg, (RGBLED.init 0 2 initState).1 = .error (.valueError msg)) ∧
    (∃ msg, (set_rgbleds_value 0 2 initState).1 =
      .error (.valueError msg)) :=
  C8_invalid_offset 0 2 0 initState (by decide)

/-- C1 (counterexample): constructing from the pristine initial state with
the invalid offset 2 raises `ValueError`, yet the process-wide state has
been mutated before the raise — the shared accessor `_mmio`, `None`
initially, has been initialised. -/
theorem C1_counterexample :
    (RGBLED.init 0 2 initState).1 =
      .error (.valueError "Offset must be a multiple of 4.") ∧
    initState.mmioInit = false ∧
    (RGBLED.init 0 2 initState).2.mmioInit = true ∧
    (RGBLED.init 0 2 initState).2 ≠ initState :=
  ⟨rfl, rfl, rfl, by decide⟩

/-- C1 (amended): `on`/`write` with an invalid color raise before any
mutation, per-instance or process-wide; the register-write primitive with
an invalid offset raises before any mutation; the constructor with an
invalid offset raises without mutating the shared value, the baseline
index, or the write log — but it does initialise the shared accessor
(`_mmio`) before the raise. -/
theorem C1_amended (led : RGBLED) (c : Int) (v : Nat) (i ofs : Int)
    (st : RGBState)
    (hc : c < 0 ∨ 8 ≤ c) (ho : ofs < 0 ∨ ofs % 4 ≠ 0) :
    ((∃ e, (led.on c st).1 = .error e) ∧
      (led.on c st).2.1 = led ∧ (led.on c st).2.2 = st) ∧
    ((∃ e, (led.write c st).1 = .error e) ∧
      (led.write c st).2.1 = led ∧ (led.write c st).2.2 = st) ∧
    ((∃ e, (set_rgbleds_value v ofs st).1 = .error e) ∧
      (set_rgbleds_value v ofs st).2 = st) ∧
    ((∃ e, (RGBLED.init i ofs st).1 = .error e) ∧
      (RGBLED.init i ofs st).2.rgbledsVal = st.rgbledsVal ∧
      (RGBLED.init i ofs st).2.startIndex = st.startIndex ∧
      (RGBLED.init i ofs st).2.mmioLog = st.mmioLog ∧
      (RGBLED.init i ofs st).2.mmioInit = true) := by
  have hofs0 : ofs ≠ 0 := by
    rcases ho with h | h
    · omega
    · intro hz
      rw [hz] at h
      exact h rfl
  refine ⟨⟨?_, ?_, ?_⟩, ⟨?_, ?_, ?_⟩, ⟨?_, ?_⟩, ⟨?_, ?_, ?_, ?_, ?_⟩⟩
  · exact ⟨.valueError "color should be an integer value from 0 to 7.",
      by simp [RGBLED.on, hc]⟩
  · simp [RGBLED.on, hc]
  · simp [RGBLED.on, hc]
  · exact ⟨.valueError "color should be an integer value from 0 to 7.",
      by simp [RGBLED.write, RGBLED.on, hc]⟩
  · simp [RGBLED.write, RGBLED.on, hc]
  · simp [RGBLED.write, RGBLED.on, hc]
  · by_cases h0 : ofs < 0
    · exact ⟨.valueError "Offset cannot be a negative value.",
        by simp [set_rgbleds_value, h0]⟩
    · have h4 : ofs % 4 ≠ 0 := by
        rcases ho with h | h
        · omega
        · exact h
      exact ⟨.valueError "Offset must be a multiple of 4.",
        by simp [set_rgbleds_value, h0, h4]⟩
  · by_cases h0 : ofs < 0
    · simp [set_rgbleds_value, h0]
    · have h4 : ofs % 4 ≠ 0 := by
        rcases ho with h | h
        · omega
        · exact h
      simp [set_rgbleds_value, h0, h4]
  · by_cases h0 : ofs < 0
    · exact ⟨.valueError "Offset cannot be a negative value.",
        by simp [RGBLED.init, h0]⟩
    · have h4 : ofs % 4 ≠ 0 := by
        rcases ho with h | h
        · omega
        · exact h
      exact ⟨.valueError "Offset must be a multiple of 4.",
        by simp [RGBLED.init, h0, h4]⟩
  · exact init_rgbledsVal i ofs st
  · rw [init_startIndex, if_neg hofs0, optMin_none_right]
  · exact init_mmioLog i ofs st
  · rw [init_snd]
    split <;> rfl

/-- Witness for C1's amended statement, at color 8 and offset 2. -/
theorem C1_amended_witness :
    ((∃ e, (({ index := 0, offset := 0, val := 0 } : RGBLED).on 8
        initState).1 = .error e) ∧
      (({ index := 0, offset := 0, val := 0 } : RGBLED).on 8
        initState).2.1 = { index := 0, offset := 0, val := 0 } ∧
      (({ index := 0, offset := 0, val := 0 } : RGBLED).on 8
        initState).2.2 = initState) ∧
    ((∃ e, (({ index := 0, offset := 0, val := 0 } : RGBLED).write 8
        initState).1 = .error e) ∧
      (({ index := 0, offset := 0, val := 0 } : RGBLED).write 8
        initState).2.1 = { index := 0, offset := 0, val := 0 } ∧
      (({ index := 0, offset := 0, val := 0 } : RGBLED).write 8
        initState).2.2 = initState) ∧
    ((∃ e, (set_rgbleds_value 1 2 initState).1 = .error e) ∧
      (set_rgbleds_value 1 2 initState).2 = initState) ∧
    ((∃ e, (RGBLED.init 0 2 initState).1 = .error e) ∧
      (RGBLED.init 0 2 initState).2.rgbledsVal = initState.rgbledsVal ∧
      (RGBLED.init 0 2 initState).2.startIndex = initState.startIndex ∧
      (RGBLED.init 0 2 initState).2.mmioLog = initState.mmioLog ∧
      (RGBLED.init 0 2 initState).2.mmioInit = true) :=
  C1_amended { index := 0, offset := 0, val := 0 } 8 1 0 2 initState
    (by decide) (by decide)

/-- C2: constructing with decreasing indices (index 3 first, then index 1)
makes the later, lowest index 1 the baseline; the RED value the index-3
instance wrote while the baseline was 3 stays at bit position 0 (the shared
value is not recomputed), while the index-3 instance's subsequent `on`,
`off` and `read` all use the new shift `(3 - 1) * 3 = 6`: `read` no longer
sees the old value, `on` ORs at bit 6, and `off` clears bits 6..8 leaving
the stale bits 0..2 in place. -/
theorem C2_decreasing_index_baseline :
    (RGBLED.init 3 0 initState).1 =
      .ok { index := 3, offset := 0, val := 0 } ∧
    (RGBLED.init 3 0 initState).2.startIndex = some 3 ∧
    ((({ index := 3, offset := 0, val := 0 } : RGBLED).on 4
      (RGBLED.init 3 0 initState).2).2.2).rgbledsVal = 4 ∧
    ((RGBLED.init 1 0 ((({ index := 3, offset := 0, val := 0 } : RGBLED).on 4
      (RGBLED.init 3 0 initState).2).2.2)).2).startIndex = some 1 ∧
    ((RGBLED.init 1 0 ((({ index := 3, offset := 0, val := 0 } : RGBLED).on 4
      (RGBLED.init 3 0 initState).2).2.2)).2).rgbledsVal = 4 ∧
    ({ index := 3, offset := 0, val := 0 } : RGBLED).read
      ((RGBLED.init 1 0 ((({ index := 3, offset := 0, val := 0 } : RGBLED).on 4
        (RGBLED.init 3 0 initState).2).2.2)).2) = .ok 0 ∧
    ((({ index := 3, offset := 0, val := 0 } : RGBLED).on 2
      ((RGBLED.init 1 0 ((({ index := 3, offset := 0, val := 0 } : RGBLED).on 4
        (RGBLED.init 3 0 initState).2).2.2)).2)).2.2).rgbledsVal =
      (4 ||| (2 <<< 6)) ∧
    ((({ index := 3, offset := 0, val := 0 } : RGBLED).off
      ((RGBLED.init 1 0 ((({ index := 3, offset := 0, val := 0 } : RGBLED).on 4
        (RGBLED.init 3 0 initState).2).2.2)).2)).2.2).rgbledsVal = 4 :=
  ⟨rfl, rfl, by decide, by decide, by decide, rfl, by decide, by decide⟩

/-- C6: along every event trace from the initial state, the baseline
`_rgbleds_start_index` equals the minimum index among the zero-offset
constructions so far (its initial infinite value if there are none); it
only ever decreases as the trace extends; and no operation other than
construction ever changes it. -/
theorem C6_baseline_is_min :
    (∀ evs : List Event,
      (runEvents evs ([], initState)).2.startIndex = specSharedMin evs) ∧
    (∀ evs evs2 : List Event,
      startLe (runEvents (evs ++ evs2) ([], initState)).2.startIndex
        (runEvents evs ([], initState)).2.startIndex) ∧
    (∀ (i ofs : Int) (st : RGBState),
      startLe (RGBLED.init i ofs st).2.startIndex st.startIndex) ∧
    (∀ (led : RGBLED) (c : Int) (st : RGBState),
      (led.on c st).2.2.startIndex = st.startIndex) ∧
    (∀ (led : RGBLED) (st : RGBState),
      (led.off st).2.2.startIndex = st.startIndex) ∧
    (∀ (v : Nat) (ofs : Int) (st : RGBState),
      (set_rgbleds_value v ofs st).2.startIndex = st.startIndex) := by
  refine ⟨?_, ?_, ?_, on_startIndex, off_startIndex,
    set_rgbleds_value_startIndex⟩
  · intro evs
    rw [runEvents_startIndex]
    rfl
  · intro evs evs2
    rw [runEvents_append]
    rcases h : runEvents evs ([], initState) with ⟨leds, st⟩
    exact runEvents_startLe evs2 leds st
  · intro i ofs st
    rw [init_startIndex]
    exact startLe_optMin_left _ _

/-- C10: along every event trace from the initial state, every constructed
zero-offset instance has its index at or above the (finite) baseline, so
the shift `(index - _rgbleds_start_index) * 3` used by `on`, `off` and
`read` is defined and is a nonnegative multiple of 3. -/
theorem C10_shift_nonneg (evs : List Event) (led : RGBLED)
    (hmem : led ∈ (runEvents evs ([], initState)).1)
    (ho : led.offset = 0) :
    ∃ s : Int, (runEvents evs ([], initState)).2.startIndex = some s ∧
      s ≤ led.index ∧
      shiftOf led.index (runEvents evs ([], initState)).2.startIndex =
        .ok (((led.index - s) * 3).toNat) ∧
      ((led.index - s) * 3).toNat % 3 = 0 := by
  have hinv := runEvents_inv evs [] initState (by simp)
  rcases hinv led hmem ho with ⟨s, hs, hle⟩
  refine ⟨s, hs, hle, ?_, by omega⟩
  rw [hs]
  simp only [shiftOf]
  rw [if_neg (by omega)]

/-- Witness for C10 on the trace that constructs indices 2 and 0 and turns
the first instance on: the baseline is 0 and the index-2 instance's shift
is the nonnegative multiple of 3, namely 6. -/
theorem C10_witness :
    ∃ s : Int,
      (runEvents [.construct 2 0, .construct 0 0, .callOn 0 5]
        ([], initState)).2.startIndex = some s ∧
      s ≤ ({ index := 2, offset := 0, val := 0 } : RGBLED).index ∧
      shiftOf ({ index := 2, offset := 0, val := 0 } : RGBLED).index
        (runEvents [.construct 2 0, .construct 0 0, .callOn 0 5]
          ([], initState)).2.startIndex =
        .ok (((({ index := 2, offset := 0, val := 0 } : RGBLED).index - s) *
          3).toNat) ∧
      ((({ index := 2, offset := 0, val := 0 } : RGBLED).index - s) *
        3).toNat % 3 = 0 :=
  C10_shift_nonneg [.construct 2 0, .construct 0 0, .callOn 0 5]
    { index := 2, offset := 0, val := 0 } (by decide) rfl
